import Mathlib

/-!
Verification development for the f1-dashboard data-ingestion scripts.

The repository fetches motorsport results from a paginated, rate-limited
HTTP API and persists them as JSON documents.  This file gives a shallow
embedding of the fetching code:

* Python strings (as used by the slug helpers) are modelled as `List Char`;
  the only `str.replace` calls in the sources use single-character
  patterns, modelled by `replaceChar`.
* A JSON response envelope `{"MRData": {"total": ..., "RaceTable":
  {"Races": [{..., "<Repeated>": [...]}]}}}` is modelled by `Doc`:
  the declared total, an opaque string standing for the remaining
  envelope metadata, and the race list, each race carrying an optional
  repeated array (`none` models an absent key).
* HTTP interaction is modelled by response sequences.  For retry loops a
  `List (Resp J)` gives the successive responses obtained for one URL;
  for pagination a function `Nat → Option (Doc α)` gives, per offset, the
  outcome of `make_request` there (`none` is the no-data sentinel that
  `make_request` returns for non-200 responses).
* Blocking sleeps are recorded as rational durations; wall-clock time is
  modelled by `ℚ`.
* Unbounded `while` loops are given a fuel parameter; a run that exhausts
  its fuel is reported as `none` / a `none` outcome, so non-termination of
  the Python loop shows up as "no fuel suffices".
-/

/-! ## Definitions -/

/-- Python single-character `str.replace`: every occurrence of the
character `c` is replaced by the string `r`.  All `replace` calls in the
repository use one-character patterns, so this captures them exactly. -/
def replaceChar (c : Char) (r : List Char) : List Char → List Char
  | [] => []
  | a :: as => (if a = c then r else [a]) ++ replaceChar c r as

/-- The apostrophe character, written via its code point. -/
def apos : Char := Char.ofNat 39

namespace events

/-- `events.py::slugify`: lowercase, then replace spaces by hyphens.
No apostrophe handling. -/
def slugify (race_name : List Char) : List Char :=
  replaceChar ' ' ['-'] (race_name.map Char.toLower)

end events

namespace PitstopsFetcher

/-- `pitstops.py::PitstopsFetcher.get_race_folder_name`: lowercase,
spaces to hyphens, and apostrophes removed. -/
def get_race_folder_name (race_name : List Char) : List Char :=
  replaceChar apos [] (replaceChar ' ' ['-'] (race_name.map Char.toLower))

end PitstopsFetcher

namespace QualifyingResultsFetcher

/-- `quali_results.py::QualifyingResultsFetcher.get_race_folder_name`:
lowercase, spaces to hyphens. -/
def get_race_folder_name (race_name : List Char) : List Char :=
  replaceChar ' ' ['-'] (race_name.map Char.toLower)

end QualifyingResultsFetcher

namespace SprintResultsFetcher

/-- `sprint_results.py::SprintResultsFetcher.get_race_folder_name`:
lowercase, spaces to hyphens. -/
def get_race_folder_name (race_name : List Char) : List Char :=
  replaceChar ' ' ['-'] (race_name.map Char.toLower)

end SprintResultsFetcher

namespace driver_points

/-- `driver_points.py::get_race_folder_name`: lowercase, spaces to
hyphens. -/
def get_race_folder_name (race_name : List Char) : List Char :=
  replaceChar ' ' ['-'] (race_name.map Char.toLower)

end driver_points

namespace ConstructorStandingsFetcher

/-- The slug expression inlined in
`team_points.py::fetch_standings_by_round` (line 128):
`race_info.get("raceName", "").lower().replace(" ", "-")`. -/
def race_name_slug (race_name : List Char) : List Char :=
  replaceChar ' ' ['-'] (race_name.map Char.toLower)

end ConstructorStandingsFetcher

namespace laptimes

/-- The slug expression inlined in `laptimes.py::save_laptimes`
(lines 69-71): `raceName.lower().replace(" ", "-")`. -/
def race_name_slug (race_name : List Char) : List Char :=
  replaceChar ' ' ['-'] (race_name.map Char.toLower)

end laptimes

/-- A race name containing an apostrophe, used to separate the slug
functions. -/
def apostropheName : List Char := ['A', apos, 'B', ' ', 'C']

namespace ConstructorStandingsFetcher

/-- `team_points.py` line 25: the hourly ceiling. -/
def SUSTAINED_LIMIT : Nat := 500

/-- `team_points.py` line 26: `1 / BURST_LIMIT` with `BURST_LIMIT = 2`. -/
def REQUEST_DELAY : ℚ := 1 / 2

/-- The process-local rate-limiter state of `ConstructorStandingsFetcher`:
the hourly request counter and the start time of the current window. -/
structure RLState where
  requests_this_hour : Nat
  hour_start_time : ℚ
deriving DecidableEq

/-- `team_points.py::reset_hour_counter_if_needed`, with the current
wall-clock time passed explicitly. -/
def reset_hour_counter_if_needed (st : RLState) (now : ℚ) : RLState :=
  if now - st.hour_start_time > 3600 then ⟨0, now⟩ else st

/-- `team_points.py::check_rate_limits`, with the current wall-clock time
passed explicitly.  Returns the state after the call together with the
time at which the following request is issued (sleeps advance the
clock).  Note the source computes `wait_time = 1800 - elapsed` and only
sleeps and resets when that is positive. -/
def check_rate_limits (st : RLState) (now : ℚ) : RLState × ℚ :=
  let st1 := reset_hour_counter_if_needed st now
  if st1.requests_this_hour ≥ SUSTAINED_LIMIT then
    let wait := 1800 - (now - st1.hour_start_time)
    if wait > 0 then (⟨0, now + wait⟩, now + wait + REQUEST_DELAY)
    else (st1, now + REQUEST_DELAY)
  else (st1, now + REQUEST_DELAY)

end ConstructorStandingsFetcher

/-- One HTTP response: a status code and the parsed JSON body it would
yield.  A list of `Resp` values models the successive responses the
server gives to repeated requests of one URL. -/
structure Resp (J : Type) where
  status : Nat
  body : J
deriving DecidableEq

/-- Whether a response is an HTTP 429. -/
def is429 {J : Type} (r : Resp J) : Bool := r.status == 429

namespace PitstopsFetcher

/-- `pitstops.py::PitstopsFetcher.make_request` on the successive
responses for one URL: a 429 sleeps 30 s and retries; any other non-200
logs and returns the `None` sentinel; a 200 returns the body.  The
result records the backoff sleeps performed; the outer `none` means the
response list was exhausted while still retrying. -/
def make_request {J : Type} : List (Resp J) → Option (Option J × List ℚ)
  | [] => none
  | r :: rest =>
    if r.status = 429 then
      (make_request rest).map (fun p => (p.1, 30 :: p.2))
    else if r.status ≠ 200 then some (none, [])
    else some (some r.body, [])

end PitstopsFetcher

namespace QualifyingResultsFetcher

/-- `quali_results.py::QualifyingResultsFetcher.make_request`: same
classification as the pitstops fetcher (30 s backoff on 429, `None`
sentinel on other non-200). -/
def make_request {J : Type} : List (Resp J) → Option (Option J × List ℚ)
  | [] => none
  | r :: rest =>
    if r.status = 429 then
      (make_request rest).map (fun p => (p.1, 30 :: p.2))
    else if r.status ≠ 200 then some (none, [])
    else some (some r.body, [])

end QualifyingResultsFetcher

namespace SprintResultsFetcher

/-- `sprint_results.py::SprintResultsFetcher.make_request`: same
classification as the pitstops fetcher. -/
def make_request {J : Type} : List (Resp J) → Option (Option J × List ℚ)
  | [] => none
  | r :: rest =>
    if r.status = 429 then
      (make_request rest).map (fun p => (p.1, 30 :: p.2))
    else if r.status ≠ 200 then some (none, [])
    else some (some r.body, [])

end SprintResultsFetcher

namespace ConstructorStandingsFetcher

/-- `team_points.py::ConstructorStandingsFetcher.make_request` response
classification: 429 sleeps 30 s and retries, other non-200 returns the
`None` sentinel, 200 returns the body. -/
def make_request {J : Type} : List (Resp J) → Option (Option J)
  | [] => none
  | r :: rest =>
    if r.status = 429 then make_request rest
    else if r.status ≠ 200 then some none
    else some (some r.body)

end ConstructorStandingsFetcher

namespace driver_points

/-- `driver_points.py::fetch_with_rate_limit`: sleeps `REQUEST_DELAY`
(1/2 s) before each attempt, 30 s extra after a 429, `None` sentinel on
other non-200. -/
def fetch_with_rate_limit {J : Type} :
    List (Resp J) → Option (Option J × List ℚ)
  | [] => none
  | r :: rest =>
    if r.status = 429 then
      (fetch_with_rate_limit rest).map (fun p => (p.1, 1 / 2 :: 30 :: p.2))
    else if r.status ≠ 200 then some (none, [1 / 2])
    else some (some r.body, [1 / 2])

end driver_points

namespace events

/-- `events.py::fetch_with_rate_limit`: sleeps 0.3 s before each attempt;
on a 429 sleeps another 60 s and retries; otherwise returns
`response.json()` directly — there is no status check, so even an error
response's parsed body is returned. -/
def fetch_with_rate_limit {J : Type} : List (Resp J) → Option (J × List ℚ)
  | [] => none
  | r :: rest =>
    if r.status = 429 then
      (fetch_with_rate_limit rest).map (fun p => (p.1, 3 / 10 :: 60 :: p.2))
    else some (r.body, [3 / 10])

end events

/-- The sleep schedule of `events.fetch_with_rate_limit` when `k`
attempts hit a 429 before the first non-429 response. -/
def eventsRetrySleeps : Nat → List ℚ
  | 0 => [3 / 10]
  | k + 1 => 3 / 10 :: 60 :: eventsRetrySleeps k

/-- The API origin shared by all the fetch scripts. -/
def base_url : String := "https://api.jolpi.ca/ergast/f1"

namespace QualifyingResultsFetcher

/-- The URL built in `quali_results.py::get_qualifying_results` (line 79):
`f"{self.base_url}/{season}/{round_num}/qualifying.json"` — no `limit`
or `offset` parameter, indeed no query string at all. -/
def qualifying_url (season round_num : Nat) : String :=
  base_url ++ "/" ++ toString season ++ "/" ++ toString round_num ++
    "/qualifying.json"

/-- `quali_results.py::get_qualifying_results`: one `make_request` call
for the qualifying URL, whose result is returned unmodified.  `server`
maps a URL to the successive responses obtained for it. -/
def get_qualifying_results {J : Type} (season round_num : Nat)
    (server : String → List (Resp J)) : Option (Option J × List ℚ) :=
  make_request (server (qualifying_url season round_num))

end QualifyingResultsFetcher

namespace driver_points

/-- The URL built in `driver_points.py::fetch_driver_standings` (line 58):
`f"{BASE_URL}/{season}/{round_num}/driverstandings/"`. -/
def driverstandings_url (season round_num : Nat) : String :=
  base_url ++ "/" ++ toString season ++ "/" ++ toString round_num ++
    "/driverstandings/"

/-- `driver_points.py::fetch_driver_standings`: one rate-limited fetch of
the driver-standings URL, returned unmodified. -/
def fetch_driver_standings {J : Type} (season round_num : Nat)
    (server : String → List (Resp J)) : Option (Option J × List ℚ) :=
  fetch_with_rate_limit (server (driverstandings_url season round_num))

end driver_points

namespace ConstructorStandingsFetcher

/-- The URL built in `team_points.py::get_constructor_standings`
(line 103): `f"{BASE_URL}/{season}/{round_num}/constructorstandings.json"`. -/
def constructorstandings_url (season round_num : Nat) : String :=
  base_url ++ "/" ++ toString season ++ "/" ++ toString round_num ++
    "/constructorstandings.json"

/-- `team_points.py::get_constructor_standings`: one `make_request` call
for the constructor-standings URL, returned unmodified. -/
def get_constructor_standings {J : Type} (season round_num : Nat)
    (server : String → List (Resp J)) : Option (Option J) :=
  make_request (server (constructorstandings_url season round_num))

end ConstructorStandingsFetcher

/-- An HTTP response with the network round-trip time it took. -/
structure TimedResp (J : Type) where
  status : Nat
  body : J
  rtt : ℚ

namespace PitstopsFetcher

/-- `pitstops.py::PitstopsFetcher.make_request` with the clock explicit.
Arguments: the successive responses for the URL, `self.last_request_time`
and the current time.  Mirrors the source: if less than `1/burst_limit`
(burst 4) elapsed since the last request completed, sleep the remaining
delta; send; set `last_request_time` to the response arrival; on 429
sleep 30 s and retry.  Returns the result, the final
`last_request_time`, and the times at which requests were sent. -/
def make_request_timed {J : Type} :
    List (TimedResp J) → ℚ → ℚ → Option J × ℚ × List ℚ
  | [], last, _ => (none, last, [])
  | r :: rest, last, now =>
    let tsl := now - last
    let send := if tsl < 1 / 4 then now + (1 / 4 - tsl) else now
    let arrive := send + r.rtt
    if r.status = 429 then
      let res := make_request_timed rest arrive (arrive + 30)
      (res.1, res.2.1, send :: res.2.2)
    else if r.status ≠ 200 then (none, arrive, [send])
    else (some r.body, arrive, [send])

end PitstopsFetcher

/-- One entry of `MRData.RaceTable.Races`: an opaque race descriptor and
the optional repeated-array field (`PitStops` / `Laps`); `none` models an
absent key. -/
structure RaceDoc (α : Type) where
  info : String
  items : Option (List α)
deriving DecidableEq

/-- A parsed response document: the declared total (`MRData.total`), an
opaque string standing for the rest of the `MRData` envelope metadata,
and the `Races` list. -/
structure Doc (α : Type) where
  total : Nat
  meta : String
  races : List (RaceDoc α)
deriving DecidableEq

/-- The guarded extraction used by `fetch_pitstops_for_race`: if `Races`
is nonempty and its first entry has the repeated-array key, its slice;
otherwise nothing. -/
def extractItems {α : Type} (d : Doc α) : List α :=
  match d.races with
  | [] => []
  | r :: _ =>
    match r.items with
    | none => []
    | some xs => xs

/-- The in-place update `response_data[...]["Races"][0]["PitStops"] =
all_pitstops` (pitstops.py line 176), guarded by `Races` being
nonempty. -/
def setFirstRaceItems {α : Type} (d : Doc α) (xs : List α) : Doc α :=
  match d.races with
  | [] => d
  | r :: rs => ⟨d.total, d.meta, ⟨r.info, some xs⟩ :: rs⟩

/-- The result of `fetch_pitstops_for_race`: either a returned value
(`none` being the Python `None` sentinel) or an uncaught `TypeError`. -/
inductive PitsOutcome (α : Type) where
  | ret : Option (Doc α) → PitsOutcome α
  | typeError : PitsOutcome α
deriving DecidableEq

/-- One run of the pit-stops collector: its outcome and the offsets it
requested, in order. -/
structure PitsRun (α : Type) where
  outcome : PitsOutcome α
  requests : List Nat
deriving DecidableEq

/-- The `while len(all_pitstops) < total_pitstops` loop of
`fetch_pitstops_for_race` (pitstops.py lines 148-167), with fuel.
`pages` maps an offset to the outcome of `make_request` there (`none` is
the no-data sentinel).  State: current offset, accumulated items, the
current value of the Python variable `response_data`, and the offsets
requested so far.  Returns `none` when the fuel runs out with the loop
still running. -/
def fetchPitstopsLoop {α : Type} (pages : Nat → Option (Doc α))
    (total limit : Nat) :
    Nat → Nat → List α → Option (Doc α) → List Nat →
      Option (List α × Option (Doc α) × List Nat)
  | 0, _, acc, cur, reqs =>
    if acc.length < total then none
    else some (acc, cur, reqs)
  | fuel + 1, offset, acc, cur, reqs =>
    if acc.length < total then
      match pages (offset + limit) with
      | none => some (acc, none, reqs ++ [offset + limit])
      | some d =>
        fetchPitstopsLoop pages total limit fuel (offset + limit)
          (acc ++ extractItems d) (some d) (reqs ++ [offset + limit])
    else some (acc, cur, reqs)

/-- The code after the loop (pitstops.py lines 169-181): if anything was
accumulated, the merged list is written into the first race of the
current `response_data`; evaluating the guard subscripts
`response_data["MRData"]`, which raises `TypeError` when `response_data`
is `None` (i.e. after a `break` on a failed page). -/
def pitsFinish {α : Type} (acc : List α) (cur : Option (Doc α))
    (reqs : List Nat) : PitsRun α :=
  if 0 < acc.length then
    match cur with
    | none => ⟨.typeError, reqs⟩
    | some d => ⟨.ret (some (setFirstRaceItems d acc)), reqs⟩
  else ⟨.ret cur, reqs⟩

/-- `pitstops.py::PitstopsFetcher.fetch_pitstops_for_race` over a server
`pages` (offset to `make_request` outcome) with `limit = 100`: request
offset 0; on failure return `None`; if the declared total is 0 return the
first page unchanged; otherwise accumulate and loop. -/
def fetchPitstopsForRace {α : Type} (pages : Nat → Option (Doc α))
    (fuel : Nat) : Option (PitsRun α) :=
  match pages 0 with
  | none => some ⟨.ret none, [0]⟩
  | some d0 =>
    if d0.total = 0 then some ⟨.ret (some d0), [0]⟩
    else
      (fetchPitstopsLoop pages d0.total 100 fuel 0 (extractItems d0)
        (some d0) [0]).map (fun t => pitsFinish t.1 t.2.1 t.2.2)

/-- The honest page of a `T`-element collection at a given offset: the
declared total is the collection size and the repeated array is the true
100-element slice; the envelope metadata and race descriptor may vary
per offset (`mf`, `inf`). -/
def honestDocM {α : Type} (mf inf : Nat → String) (elems : List α)
    (o : Nat) : Doc α :=
  ⟨elems.length, mf o, [⟨inf o, some ((elems.drop o).take 100)⟩]⟩

/-- A server on which every page request succeeds with the honest page. -/
def honestPagesM {α : Type} (mf inf : Nat → String) (elems : List α) :
    Nat → Option (Doc α) :=
  fun o => some (honestDocM mf inf elems o)

/-- A response at offset `o` is consistent with the `T`-element
collection `elems`: it either fails, or declares the true total and
carries the true slice at `o`. -/
def okPage {α : Type} (elems : List α) (o : Nat) :
    Option (Doc α) → Prop
  | none => True
  | some d => d.total = elems.length
      ∧ extractItems d = (elems.drop o).take 100

/-- Python errors that the laptimes merge can raise. -/
inductive PyErr where
  | keyError
  | indexError
deriving DecidableEq

/-- The append step of `fetch_laptimes` (lines 44-48):
`if "Laps" in data[...]["Races"][0]: all_data[...]["Races"][0]["Laps"]
.extend(data[...]["Races"][0]["Laps"])`.  Indexing an empty `Races`
raises `IndexError`; a missing `Laps` key on the accumulated document
raises `KeyError`. -/
def appendLaps {α : Type} (ad d : Doc α) : Except PyErr (Doc α) :=
  match d.races with
  | [] => .error .indexError
  | r :: _ =>
    match r.items with
    | none => .ok ad
    | some xs =>
      match ad.races with
      | [] => .error .indexError
      | r0 :: rs =>
        match r0.items with
        | none => .error .keyError
        | some ys => .ok ⟨ad.total, ad.meta, ⟨r0.info, some (ys ++ xs)⟩ :: rs⟩

/-- What one attempt at an offset yields inside the `try` of
`fetch_laptimes`: a parsed 200 document, a 429 (`raise_for_status`
signalling rate limiting), or any other request exception; each carries
the time the attempt took. -/
inductive LapResp (α : Type) where
  | ok : Doc α → ℚ → LapResp α
  | rateLimited : ℚ → LapResp α
  | err : ℚ → LapResp α

/-- One run of the lap-times collector: the offsets requested, the send
time of each request, and the outcome — `none` when the fuel ran out,
otherwise the Python return value (`Except` for an uncaught error,
`Option` for the `None` sentinel). -/
structure LapRun (α : Type) where
  requests : List Nat
  sends : List ℚ
  outcome : Option (Except PyErr (Option (Doc α)))

/-- The loop condition of `fetch_laptimes`:
`total_records is None or offset < total_records`. -/
def lapCont {α : Type} : Option (Doc α × Nat) → Nat → Bool
  | none, _ => true
  | some p, offset => decide (offset < p.2)

/-- Prefixing a run with one more issued request. -/
def lapPrepend {α : Type} (offset : Nat) (now : ℚ) (r : LapRun α) :
    LapRun α :=
  ⟨offset :: r.requests, now :: r.sends, r.outcome⟩

/-- The `while` loop of `laptimes.py::fetch_laptimes` (lines 29-61), with
fuel and an explicit clock.  State: current offset, `all_data` paired
with the parsed `total_records` (or `none` before the first success), and
the current time.  A 429 sleeps 60 s and retries the same offset; any
other exception returns `None`; a success initialises or extends
`all_data`, advances the offset by 100 and sleeps 1/4 s. -/
def fetchLaptimesAux {α : Type} (pages : Nat → LapResp α) :
    Nat → Nat → Option (Doc α × Nat) → ℚ → LapRun α
  | 0, offset, st, _ =>
    if lapCont st offset then ⟨[], [], none⟩
    else ⟨[], [], some (.ok (st.map Prod.fst))⟩
  | fuel + 1, offset, st, now =>
    if lapCont st offset then
      match pages offset with
      | .rateLimited rtt =>
        lapPrepend offset now
          (fetchLaptimesAux pages fuel offset st (now + rtt + 60))
      | .err _ => ⟨[offset], [now], some (.ok none)⟩
      | .ok d rtt =>
        match st with
        | none =>
          lapPrepend offset now
            (fetchLaptimesAux pages fuel (offset + 100) (some (d, d.total))
              (now + rtt + 1 / 4))
        | some (ad, t) =>
          match appendLaps ad d with
          | .error e => ⟨[offset], [now], some (.error e)⟩
          | .ok ad2 =>
            lapPrepend offset now
              (fetchLaptimesAux pages fuel (offset + 100) (some (ad2, t))
                (now + rtt + 1 / 4))
    else ⟨[], [], some (.ok (st.map Prod.fst))⟩

/-- `laptimes.py::fetch_laptimes`: run the loop from offset 0 with no
data yet. -/
def fetch_laptimes {α : Type} (pages : Nat → LapResp α) (fuel : Nat) :
    LapRun α :=
  fetchLaptimesAux pages fuel 0 none 0

/-- A lap-times server on which every attempt succeeds with the honest
page; `rtf` gives each offset's round-trip time. -/
def lapHonestPages {α : Type} (mf inf : Nat → String) (rtf : Nat → ℚ)
    (elems : List α) : Nat → LapResp α :=
  fun o => .ok (honestDocM mf inf elems o) (rtf o)

/-- The server of the C2 scenario: the first page succeeds declaring 150
pit stops and delivering 100; the request at offset 100 fails (no-data
sentinel). -/
def failingSecondPage : Nat → Option (Doc Nat) :=
  fun o =>
    if o = 0 then some ⟨150, "m", [⟨"r", some (List.range 100)⟩]⟩ else none

/-- The server of the C8 scenario: the first page declares 5 pit stops
but delivers 2; every later request succeeds with an empty `Races`
list. -/
def stallingPages : Nat → Option (Doc Nat) :=
  fun o =>
    if o = 0 then some ⟨5, "m", [⟨"r", some [0, 1]⟩]⟩ else some ⟨5, "m", []⟩

/-- The round-trip time of a lap-times attempt. -/
def lapRtt {α : Type} : LapResp α → ℚ
  | .ok _ rtt => rtt
  | .rateLimited rtt => rtt
  | .err rtt => rtt

/-! ## Theorems -/

/-- If `c` does not occur in `l`, replacing `c` is the identity. -/
theorem replaceChar_of_not_mem (c : Char) (r : List Char) :
    ∀ l : List Char, c ∉ l → replaceChar c r l = l := by
  intro l
  induction l with
  | nil => intro _; rfl
  | cons a as ih =>
    intro h
    have ha : a ≠ c := fun hac => h (hac ▸ List.mem_cons_self a as)
    have has : c ∉ as := fun hm => h (List.mem_cons_of_mem a hm)
    simp [replaceChar, if_neg ha, ih has]

/-- C3 counterexample: the pitstops job and the events-index job compute
different folder names for a race name containing an apostrophe, so slug
derivation is not one common function across components. -/
theorem slug_divergence_on_apostrophe :
    PitstopsFetcher.get_race_folder_name apostropheName ≠
      events.slugify apostropheName := by
  decide

/-- C3 (amended): the events-index, qualifying, sprint, driver-standings,
constructor-standings and laptimes components all use the same slug
function (lowercase, spaces to hyphens, apostrophes kept); the pitstops
job additionally strips apostrophes, so it agrees with the others exactly
on race names whose common slug contains no apostrophe. -/
theorem slug_uniformity_amended (name : List Char)
    (h : apos ∉ events.slugify name) :
    QualifyingResultsFetcher.get_race_folder_name name = events.slugify name
    ∧ SprintResultsFetcher.get_race_folder_name name = events.slugify name
    ∧ driver_points.get_race_folder_name name = events.slugify name
    ∧ ConstructorStandingsFetcher.race_name_slug name = events.slugify name
    ∧ laptimes.race_name_slug name = events.slugify name
    ∧ PitstopsFetcher.get_race_folder_name name = events.slugify name := by
  refine ⟨rfl, rfl, rfl, rfl, rfl, ?_⟩
  exact replaceChar_of_not_mem apos [] _ h

/-- Witness for `slug_uniformity_amended` at a concrete race name. -/
theorem slug_uniformity_amended_witness :
    QualifyingResultsFetcher.get_race_folder_name ['G', 'P'] =
        events.slugify ['G', 'P']
    ∧ SprintResultsFetcher.get_race_folder_name ['G', 'P'] =
        events.slugify ['G', 'P']
    ∧ driver_points.get_race_folder_name ['G', 'P'] =
        events.slugify ['G', 'P']
    ∧ ConstructorStandingsFetcher.race_name_slug ['G', 'P'] =
        events.slugify ['G', 'P']
    ∧ laptimes.race_name_slug ['G', 'P'] = events.slugify ['G', 'P']
    ∧ PitstopsFetcher.get_race_folder_name ['G', 'P'] =
        events.slugify ['G', 'P'] :=
  slug_uniformity_amended ['G', 'P'] (by decide)

/-- C4 counterexample: with the counter at the ceiling (500) and 2000
seconds elapsed since the window start, the next acquire does not block
until the hour has elapsed and does not reset the counter: the request
fires at 2000.5 s, well before 3600 s, with the counter still at 500
(the code's wait target is 1800 s, not one hour). -/
theorem sustained_wait_not_an_hour :
    ConstructorStandingsFetcher.check_rate_limits ⟨500, 0⟩ 2000 =
        (⟨500, 0⟩, 2000 + 1 / 2)
    ∧ (2000 : ℚ) + 1 / 2 < 0 + 3600
    ∧ (500 : Nat) ≠ 0 := by
  refine ⟨?_, by norm_num, by decide⟩
  norm_num [ConstructorStandingsFetcher.check_rate_limits,
    ConstructorStandingsFetcher.reset_hour_counter_if_needed,
    ConstructorStandingsFetcher.SUSTAINED_LIMIT,
    ConstructorStandingsFetcher.REQUEST_DELAY]

/-- C4 (amended): in the constructor-standings fetcher (the only fetcher
with an hourly counter), once the counter has reached the sustained
ceiling of 500: if fewer than 1800 seconds have passed since the window
start, the next acquire blocks exactly until 1800 seconds after the
window start (half the advertised hour), resets the counter to zero and
restarts the window there; if at least 1800 seconds have passed it
neither blocks nor resets (the counter is only cleared by the separate
3600-second reset check). -/
theorem sustained_policy_half_window (st : ConstructorStandingsFetcher.RLState)
    (now : ℚ) (h1 : now - st.hour_start_time ≤ 3600)
    (h2 : ConstructorStandingsFetcher.SUSTAINED_LIMIT ≤ st.requests_this_hour) :
    (now - st.hour_start_time < 1800 →
      ConstructorStandingsFetcher.check_rate_limits st now =
        (⟨0, st.hour_start_time + 1800⟩,
          st.hour_start_time + 1800 + ConstructorStandingsFetcher.REQUEST_DELAY))
    ∧ (1800 ≤ now - st.hour_start_time →
      ConstructorStandingsFetcher.check_rate_limits st now =
        (st, now + ConstructorStandingsFetcher.REQUEST_DELAY)) := by
  have hreset : ConstructorStandingsFetcher.reset_hour_counter_if_needed st now
      = st := by
    unfold ConstructorStandingsFetcher.reset_hour_counter_if_needed
    rw [if_neg (by linarith)]
  constructor
  · intro h3
    unfold ConstructorStandingsFetcher.check_rate_limits
    rw [hreset, if_pos h2, if_pos (by linarith)]
    rw [Prod.mk.injEq, ConstructorStandingsFetcher.RLState.mk.injEq]
    refine ⟨⟨rfl, by ring⟩, by ring⟩
  · intro h3
    unfold ConstructorStandingsFetcher.check_rate_limits
    rw [hreset, if_pos h2, if_neg (by linarith)]

/-- C6: whenever the response sequence for a URL contains a non-429
response, the pitstops fetcher retries through every leading 429 with a
fixed 30 s sleep each, the events fetcher does the same with a 60 s
sleep, and both return the handling of the first non-429 response — a
429 is never surfaced to the caller.  The retry is unbounded: as long as
only 429s have been received, neither fetcher has returned. -/
theorem rate_limited_always_retried {J : Type} (rs : List (Resp J))
    (h : ∃ r ∈ rs, r.status ≠ 429) :
    ∃ r rest, rs.dropWhile is429 = r :: rest ∧ r.status ≠ 429
    ∧ PitstopsFetcher.make_request rs =
        some ((if r.status = 200 then some r.body else none),
          List.replicate (rs.takeWhile is429).length 30)
    ∧ events.fetch_with_rate_limit rs =
        some (r.body, eventsRetrySleeps (rs.takeWhile is429).length)
    ∧ (∀ n, PitstopsFetcher.make_request
          (List.replicate n (Resp.mk 429 r.body)) = none)
    ∧ (∀ n, events.fetch_with_rate_limit
          (List.replicate n (Resp.mk 429 r.body)) = none) := by
  induction rs with
  | nil => exact absurd h (by simp)
  | cons r0 rest ih =>
    by_cases h429 : r0.status = 429
    · have hb : is429 r0 = true := by simp [is429, h429]
      have hrest : ∃ r ∈ rest, r.status ≠ 429 := by
        rcases h with ⟨r, hr, hne⟩
        rcases List.mem_cons.mp hr with rfl | hmem
        · exact absurd h429 hne
        · exact ⟨r, hmem, hne⟩
      rcases ih hrest with ⟨r, rst, hdrop, hne, hpit, hev, h429pit, h429ev⟩
      refine ⟨r, rst, ?_, hne, ?_, ?_, h429pit, h429ev⟩
      · simpa [List.dropWhile, hb] using hdrop
      · simp [PitstopsFetcher.make_request, h429, hpit, List.takeWhile, hb,
          List.replicate_succ]
      · simp [events.fetch_with_rate_limit, h429, hev, List.takeWhile, hb,
          eventsRetrySleeps]
    · have hb : is429 r0 = false := by simp [is429, h429]
      refine ⟨r0, rest, by simp [List.dropWhile, hb], h429, ?_, ?_, ?_, ?_⟩
      · by_cases h200 : r0.status = 200 <;>
          simp [PitstopsFetcher.make_request, h429, h200, List.takeWhile, hb]
      · simp [events.fetch_with_rate_limit, h429, List.takeWhile, hb,
          eventsRetrySleeps]
      · intro n
        induction n with
        | zero => rfl
        | succ n ihn => simp [List.replicate_succ,
            PitstopsFetcher.make_request, ihn]
      · intro n
        induction n with
        | zero => rfl
        | succ n ihn => simp [List.replicate_succ,
            events.fetch_with_rate_limit, ihn]

/-- Witness for `rate_limited_always_retried`: one 429 followed by a 503. -/
theorem rate_limited_always_retried_witness :
    ∃ r rest,
      ([⟨429, 7⟩, ⟨503, 7⟩] : List (Resp Nat)).dropWhile is429 = r :: rest
      ∧ r.status ≠ 429
      ∧ PitstopsFetcher.make_request ([⟨429, 7⟩, ⟨503, 7⟩] : List (Resp Nat)) =
          some ((if r.status = 200 then some r.body else none),
            List.replicate (([⟨429, 7⟩, ⟨503, 7⟩] :
              List (Resp Nat)).takeWhile is429).length 30)
      ∧ events.fetch_with_rate_limit ([⟨429, 7⟩, ⟨503, 7⟩] : List (Resp Nat)) =
          some (r.body, eventsRetrySleeps (([⟨429, 7⟩, ⟨503, 7⟩] :
            List (Resp Nat)).takeWhile is429).length)
      ∧ (∀ n, PitstopsFetcher.make_request
            (List.replicate n (Resp.mk 429 r.body)) = none)
      ∧ (∀ n, events.fetch_with_rate_limit
            (List.replicate n (Resp.mk 429 r.body)) = none) :=
  rate_limited_always_retried [⟨429, 7⟩, ⟨503, 7⟩] ⟨⟨503, 7⟩, by decide, by decide⟩

/-- `Nat.digitChar` never produces a question mark. -/
theorem digitChar_ne_qmark (n : Nat) : Nat.digitChar n ≠ '?' := by
  rcases Nat.lt_or_ge n 16 with h | h
  · interval_cases n <;> decide
  · unfold Nat.digitChar
    repeat rw [if_neg (by omega)]
    decide

/-- `Nat.toDigitsCore` only adds digit characters, so it never introduces
a question mark. -/
theorem toDigitsCore_ne_qmark :
    ∀ (fuel n : Nat) (ds : List Char), (∀ c ∈ ds, c ≠ '?') →
      ∀ c ∈ Nat.toDigitsCore 10 fuel n ds, c ≠ '?' := by
  intro fuel
  induction fuel with
  | zero =>
    intro n ds hds c hc
    exact hds c hc
  | succ fuel ih =>
    intro n ds hds c hc
    have hcons : ∀ x ∈ Nat.digitChar (n % 10) :: ds, x ≠ '?' := by
      intro x hx
      rcases List.mem_cons.mp hx with rfl | hm
      · exact digitChar_ne_qmark _
      · exact hds x hm
    unfold Nat.toDigitsCore at hc
    by_cases h : n / 10 = 0
    · rw [if_pos h] at hc
      exact hcons c hc
    · rw [if_neg h] at hc
      exact ih _ _ hcons c hc

/-- The decimal representation of a natural number contains no question
mark. -/
theorem tostring_no_qmark (n : Nat) : '?' ∉ (toString n).data := by
  intro h
  exact toDigitsCore_ne_qmark (n + 1) n [] (by simp) _ h rfl

/-- A URL of the shape `base/season/round<tail>` contains no question
mark when `tail` contains none. -/
theorem url_prefix_no_qmark (s r : Nat) (tail : String)
    (htail : '?' ∉ tail.data) :
    '?' ∉ (base_url ++ "/" ++ toString s ++ "/" ++ toString r ++
      tail).data := by
  intro hmem
  simp only [String.data_append, List.mem_append] at hmem
  rcases hmem with ((((hb | h1) | hs) | h2) | hr) | ht
  · revert hb; decide
  · revert h1; decide
  · exact tostring_no_qmark s hs
  · revert h2; decide
  · exact tostring_no_qmark r hr
  · exact htail ht

/-- C10: the qualifying, driver-standings and constructor-standings jobs
each issue a single request for their resource URL — a URL with no query
string, hence no `limit` or `offset` parameter — and, when that request
returns 200, hand back the response payload unmodified, without
inspecting any declared total (the payload type is opaque here).  A
payload whose upstream total exceeds the returned page is therefore
persisted truncated, never paginated. -/
theorem single_page_resources {J : Type} (season round_num : Nat) (body : J)
    (srvQ srvD srvT : String → List (Resp J))
    (hq : srvQ (QualifyingResultsFetcher.qualifying_url season round_num) =
      [Resp.mk 200 body])
    (hd : srvD (driver_points.driverstandings_url season round_num) =
      [Resp.mk 200 body])
    (ht : srvT (ConstructorStandingsFetcher.constructorstandings_url season
      round_num) = [Resp.mk 200 body]) :
    QualifyingResultsFetcher.get_qualifying_results season round_num srvQ =
        some (some body, [])
    ∧ driver_points.fetch_driver_standings season round_num srvD =
        some (some body, [1 / 2])
    ∧ ConstructorStandingsFetcher.get_constructor_standings season round_num
        srvT = some (some body)
    ∧ '?' ∉ (QualifyingResultsFetcher.qualifying_url season round_num).data
    ∧ '?' ∉ (driver_points.driverstandings_url season round_num).data
    ∧ '?' ∉ (ConstructorStandingsFetcher.constructorstandings_url season
        round_num).data := by
  refine ⟨?_, ?_, ?_, ?_, ?_, ?_⟩
  · simp [QualifyingResultsFetcher.get_qualifying_results, hq,
      QualifyingResultsFetcher.make_request]
  · simp [driver_points.fetch_driver_standings, hd,
      driver_points.fetch_with_rate_limit]
  · simp [ConstructorStandingsFetcher.get_constructor_standings, ht,
      ConstructorStandingsFetcher.make_request]
  · exact url_prefix_no_qmark season round_num "/qualifying.json" (by decide)
  · exact url_prefix_no_qmark season round_num "/driverstandings/" (by decide)
  · exact url_prefix_no_qmark season round_num "/constructorstandings.json"
      (by decide)

/-- Witness for `single_page_resources` with a concrete payload and
season/round, on servers answering 200 immediately. -/
theorem single_page_resources_witness :
    QualifyingResultsFetcher.get_qualifying_results 2025 20
        (fun _ => [Resp.mk 200 (7 : Nat)]) = some (some 7, [])
    ∧ driver_points.fetch_driver_standings 2025 20
        (fun _ => [Resp.mk 200 (7 : Nat)]) = some (some 7, [1 / 2])
    ∧ ConstructorStandingsFetcher.get_constructor_standings 2025 20
        (fun _ => [Resp.mk 200 (7 : Nat)]) = some (some 7)
    ∧ '?' ∉ (QualifyingResultsFetcher.qualifying_url 2025 20).data
    ∧ '?' ∉ (driver_points.driverstandings_url 2025 20).data
    ∧ '?' ∉ (ConstructorStandingsFetcher.constructorstandings_url
        2025 20).data :=
  single_page_resources 2025 20 7 (fun _ => [Resp.mk 200 7])
    (fun _ => [Resp.mk 200 7]) (fun _ => [Resp.mk 200 7]) rfl rfl rfl

/-- Weakening the head of a minimum-gap chain. -/
theorem chain_spacing_weaken (c : ℚ) (l : List ℚ) (a b : ℚ) (hba : b ≤ a)
    (hch : List.Chain (fun x y => x + c ≤ y) a l) :
    List.Chain (fun x y => x + c ≤ y) b l := by
  cases l with
  | nil => exact List.Chain.nil
  | cons x xs =>
    cases hch with
    | cons hax hxs => exact List.Chain.cons (by linarith) hxs

/-- With burst limit 4, given nonnegative network delays and a clock
that never runs backwards, every request `make_request` sends comes at
least 1/4 s after the previous request completed (`last_request_time`),
consecutive sends are at least 1/4 s apart — including across 429
retries — and when less than 1/4 s has elapsed the fetcher sleeps
exactly the remaining delta. -/
theorem make_request_timed_spacing {J : Type} (rs : List (TimedResp J))
    (last now : ℚ)
    (hr : ∀ r ∈ rs, 0 ≤ r.rtt) (hln : last ≤ now) :
    List.Chain (fun a b => a + 1 / 4 ≤ b) last
      (PitstopsFetcher.make_request_timed rs last now).2.2
    ∧ (now - last < 1 / 4 → rs ≠ [] →
      ((PitstopsFetcher.make_request_timed rs last now).2.2).head? =
        some (last + 1 / 4)) := by
  induction rs generalizing last now with
  | nil =>
    exact ⟨List.Chain.nil, fun _ hne => absurd rfl hne⟩
  | cons r rest ih =>
    have hrtt : 0 ≤ r.rtt := hr r (List.mem_cons_self r rest)
    have hrrest : ∀ x ∈ rest, 0 ≤ x.rtt :=
      fun x hx => hr x (List.mem_cons_of_mem r hx)
    have hsend : last + 1 / 4 ≤
        (if now - last < 1 / 4 then now + (1 / 4 - (now - last)) else now) := by
      by_cases hts : now - last < 1 / 4
      · rw [if_pos hts]; linarith
      · rw [if_neg hts]; linarith [not_lt.mp hts]
    have hsend_eq : now - last < 1 / 4 →
        (if now - last < 1 / 4 then now + (1 / 4 - (now - last)) else now) =
          last + 1 / 4 := by
      intro hts; rw [if_pos hts]; ring
    set s := (if now - last < 1 / 4 then now + (1 / 4 - (now - last)) else now)
      with hs
    by_cases h429 : r.status = 429
    · have heq : PitstopsFetcher.make_request_timed (r :: rest) last now =
          ((PitstopsFetcher.make_request_timed rest (s + r.rtt)
              (s + r.rtt + 30)).1,
            (PitstopsFetcher.make_request_timed rest (s + r.rtt)
              (s + r.rtt + 30)).2.1,
            s :: (PitstopsFetcher.make_request_timed rest (s + r.rtt)
              (s + r.rtt + 30)).2.2) := by
        simp only [PitstopsFetcher.make_request_timed, hs, if_pos h429]
      rw [heq]
      have hihc := ih (s + r.rtt) (s + r.rtt + 30) hrrest (by linarith)
      constructor
      · exact List.Chain.cons hsend
          (chain_spacing_weaken _ _ _ _ (by linarith) hihc.1)
      · intro hts _
        simp [hsend_eq hts]
    · have heq : (PitstopsFetcher.make_request_timed (r :: rest)
          last now).2.2 = [s] := by
        by_cases h200 : r.status = 200
        · simp only [PitstopsFetcher.make_request_timed, hs, if_neg h429]
          rw [if_neg (by simpa using h200)]
        · simp only [PitstopsFetcher.make_request_timed, hs, if_neg h429]
          rw [if_pos h200]
      rw [heq]
      exact ⟨List.Chain.cons hsend List.Chain.nil,
        fun hts _ => by simp [hsend_eq hts]⟩

/-- Prepending one more page offset to an arithmetic offset sequence. -/
theorem cons_offsets (a n : Nat) :
    a * 100 :: (List.range n).map (fun j => (a + 1 + j) * 100) =
      (List.range (n + 1)).map (fun j => (a + j) * 100) := by
  rw [List.range_succ_eq_map, List.map_cons, List.map_map]
  have hfun : ((fun j => (a + j) * 100) ∘ Nat.succ) =
      (fun j => (a + 1 + j) * 100) := by
    funext j
    simp only [Function.comp, Nat.succ_eq_add_one]
    ring
  rw [hfun]
  simp

/-- Running the pit-stops loop against the honest server from the state
reached after page `k`: it fetches the remaining pages in ascending
offset order, ends with the full collection accumulated, and leaves
`response_data` holding the last page fetched. -/
theorem fetchPitstopsLoop_honest {α : Type} (mf inf : Nat → String)
    (elems : List α) :
    ∀ (fuel k : Nat) (reqs : List Nat),
      elems.length ≤ (k + 1) * 100 + fuel * 100 →
      fetchPitstopsLoop (honestPagesM mf inf elems) elems.length 100 fuel
          (k * 100) (elems.take ((k + 1) * 100))
          (some (honestDocM mf inf elems (k * 100))) reqs
        = some (elems,
            some (honestDocM mf inf elems
              ((k + ((elems.length + 99) / 100 - (k + 1))) * 100)),
            reqs ++ (List.range ((elems.length + 99) / 100 - (k + 1))).map
              (fun j => (k + 1 + j) * 100)) := by
  intro fuel
  induction fuel with
  | zero =>
    intro k reqs hle
    have hle2 : elems.length ≤ (k + 1) * 100 := by omega
    have hceil : (elems.length + 99) / 100 - (k + 1) = 0 := by omega
    rw [hceil]
    simp only [fetchPitstopsLoop, List.length_take]
    rw [if_neg (by omega)]
    rw [List.take_of_length_le hle2]
    simp
  | succ fuel ih =>
    intro k reqs hle
    by_cases hstop : elems.length ≤ (k + 1) * 100
    · have hceil : (elems.length + 99) / 100 - (k + 1) = 0 := by omega
      rw [hceil]
      simp only [fetchPitstopsLoop, List.length_take]
      rw [if_neg (by omega)]
      rw [List.take_of_length_le hstop]
      simp
    · push_neg at hstop
      have hceil : (elems.length + 99) / 100 - (k + 1) =
          ((elems.length + 99) / 100 - (k + 1 + 1)) + 1 := by omega
      have hoff : k * 100 + 100 = (k + 1) * 100 := by ring
      simp only [fetchPitstopsLoop, List.length_take]
      rw [if_pos (by omega)]
      rw [hoff]
      simp only [honestPagesM]
      have hacc : elems.take ((k + 1) * 100) ++
          extractItems (honestDocM mf inf elems ((k + 1) * 100)) =
          elems.take ((k + 1 + 1) * 100) := by
        show elems.take ((k + 1) * 100) ++
          (elems.drop ((k + 1) * 100)).take 100 = _
        rw [← List.take_add]
        have h : (k + 1) * 100 + 100 = (k + 1 + 1) * 100 := by ring
        rw [h]
      rw [hacc]
      rw [ih (k + 1) (reqs ++ [(k + 1) * 100]) (by omega)]
      have hk : k + 1 + ((elems.length + 99) / 100 - (k + 1 + 1)) =
          k + ((elems.length + 99) / 100 - (k + 1)) := by omega
      rw [hk, hceil, List.append_assoc, List.singleton_append,
        cons_offsets (k + 1)]

/-- Against any server whose successful pages are true slices, the loop
accumulator stays a prefix of the collection, so the merged list never
exceeds the declared total, and the current `response_data` (when a
document) always carries a bounded slice. -/
theorem fetchPitstopsLoop_le {α : Type} (pages : Nat → Option (Doc α))
    (elems : List α) (hok : ∀ o, okPage elems o (pages o)) :
    ∀ (fuel k : Nat) (cur : Option (Doc α)) (reqs : List Nat),
      (∀ d, cur = some d → (extractItems d).length ≤ elems.length) →
      ∀ res : List α × Option (Doc α) × List Nat,
        fetchPitstopsLoop pages elems.length 100 fuel (k * 100)
            (elems.take ((k + 1) * 100)) cur reqs = some res →
        res.1.length ≤ elems.length ∧
          (∀ d, res.2.1 = some d →
            (extractItems d).length ≤ elems.length) := by
  intro fuel
  induction fuel with
  | zero =>
    intro k cur reqs hcur res hres
    simp only [fetchPitstopsLoop] at hres
    by_cases hc : (elems.take ((k + 1) * 100)).length < elems.length
    · rw [if_pos hc] at hres
      cases hres
    · rw [if_neg hc] at hres
      cases hres
      refine ⟨?_, hcur⟩
      rw [List.length_take]
      omega
  | succ fuel ih =>
    intro k cur reqs hcur res hres
    simp only [fetchPitstopsLoop] at hres
    by_cases hc : (elems.take ((k + 1) * 100)).length < elems.length
    · rw [if_pos hc] at hres
      cases hpg : pages (k * 100 + 100) with
      | none =>
        simp only [hpg] at hres
        cases hres
        refine ⟨?_, ?_⟩
        · rw [List.length_take]; omega
        · intro d hd; cases hd
      | some d =>
        simp only [hpg] at hres
        have hokd := hok (k * 100 + 100)
        rw [hpg] at hokd
        obtain ⟨hdt, hdi⟩ := hokd
        have hoff : k * 100 + 100 = (k + 1) * 100 := by ring
        rw [hoff] at hres hdi
        have hacc : elems.take ((k + 1) * 100) ++ extractItems d =
            elems.take ((k + 1 + 1) * 100) := by
          rw [hdi, ← List.take_add]
          have h : (k + 1) * 100 + 100 = (k + 1 + 1) * 100 := by ring
          rw [h]
        rw [hacc] at hres
        refine ih (k + 1) (some d) _ ?_ res hres
        intro x hx
        cases hx
        rw [hdi, List.length_take, List.length_drop]
        omega
    · rw [if_neg hc] at hres
      cases hres
      refine ⟨?_, hcur⟩
      rw [List.length_take]
      omega

/-- On the honest server with a nonempty collection,
`fetch_pitstops_for_race` requests exactly the offsets `0, 100, 200, …`
covering the total, and returns the last page's envelope with the merged
full collection written into its first race. -/
theorem fetchPitstopsForRace_honest {α : Type} (mf inf : Nat → String)
    (elems : List α) (hne : elems.length ≠ 0) (fuel : Nat)
    (hfuel : elems.length ≤ 100 + fuel * 100) :
    fetchPitstopsForRace (honestPagesM mf inf elems) fuel =
      some ⟨.ret (some (setFirstRaceItems
          (honestDocM mf inf elems (((elems.length + 99) / 100 - 1) * 100))
          elems)),
        (List.range ((elems.length + 99) / 100)).map (fun j => j * 100)⟩ := by
  have hstep : fetchPitstopsForRace (honestPagesM mf inf elems) fuel =
      if elems.length = 0 then
        some ⟨.ret (some (honestDocM mf inf elems 0)), [0]⟩
      else
        (fetchPitstopsLoop (honestPagesM mf inf elems) elems.length 100 fuel
          (0 * 100) (elems.take ((0 + 1) * 100))
          (some (honestDocM mf inf elems (0 * 100))) [0]).map
          (fun t => pitsFinish t.1 t.2.1 t.2.2) := rfl
  rw [hstep, if_neg hne]
  rw [fetchPitstopsLoop_honest mf inf elems fuel 0 [0] (by omega)]
  simp only [Option.map_some']
  have hfin : pitsFinish elems
      (some (honestDocM mf inf elems
        ((0 + ((elems.length + 99) / 100 - (0 + 1))) * 100)))
      ([0] ++ (List.range ((elems.length + 99) / 100 - (0 + 1))).map
        (fun j => (0 + 1 + j) * 100)) =
      ⟨.ret (some (setFirstRaceItems
          (honestDocM mf inf elems
            ((0 + ((elems.length + 99) / 100 - (0 + 1))) * 100)) elems)),
        [0] ++ (List.range ((elems.length + 99) / 100 - (0 + 1))).map
          (fun j => (0 + 1 + j) * 100)⟩ := by
    unfold pitsFinish
    rw [if_pos (by omega)]
  rw [hfin]
  have hk : 0 + ((elems.length + 99) / 100 - (0 + 1)) =
      (elems.length + 99) / 100 - 1 := by omega
  rw [hk]
  have hreqs : [0] ++ (List.range ((elems.length + 99) / 100 - (0 + 1))).map
      (fun j => (0 + 1 + j) * 100) =
      (List.range ((elems.length + 99) / 100)).map (fun j => j * 100) := by
    rw [List.singleton_append]
    generalize hn : (elems.length + 99) / 100 - (0 + 1) = n
    have hC : (elems.length + 99) / 100 = n + 1 := by omega
    rw [hC]
    have h := cons_offsets 0 n
    simp only [Nat.zero_mul] at h
    rw [h]
    refine List.map_congr_left ?_
    intro a _
    ring
  rw [hreqs]

/-- Running the lap-times loop against the honest server from the state
reached after `k ≥ 1` pages: it requests the remaining offsets in
ascending order and ends with the first page's envelope holding the full
collection. -/
theorem fetchLaptimesAux_honest {α : Type} (mf inf : Nat → String)
    (rtf : Nat → ℚ) (elems : List α) :
    ∀ (fuel k : Nat) (now : ℚ), 1 ≤ k →
      elems.length ≤ k * 100 + fuel * 100 →
      fetchLaptimesAux (lapHonestPages mf inf rtf elems) fuel (k * 100)
          (some (⟨elems.length, mf 0, [⟨inf 0, some (elems.take (k * 100))⟩]⟩,
            elems.length)) now
        = ⟨(List.range ((elems.length + 99) / 100 - k)).map
              (fun j => (k + j) * 100),
            (fetchLaptimesAux (lapHonestPages mf inf rtf elems) fuel (k * 100)
              (some (⟨elems.length, mf 0,
                [⟨inf 0, some (elems.take (k * 100))⟩]⟩, elems.length))
              now).sends,
            some (.ok (some ⟨elems.length, mf 0, [⟨inf 0, some elems⟩]⟩))⟩ := by
  intro fuel
  induction fuel with
  | zero =>
    intro k now hk hle
    have hcont : lapCont (α := α)
        (some (⟨elems.length, mf 0, [⟨inf 0, some (elems.take (k * 100))⟩]⟩,
          elems.length)) (k * 100) = false := by
      simp [lapCont]
      omega
    simp only [fetchLaptimesAux, hcont, Bool.false_eq_true, if_false]
    have hceil : (elems.length + 99) / 100 - k = 0 := by omega
    rw [hceil, List.take_of_length_le (by omega)]
    simp
  | succ fuel ih =>
    intro k now hk hle
    by_cases hstop : elems.length ≤ k * 100
    · have hcont : lapCont (α := α)
          (some (⟨elems.length, mf 0, [⟨inf 0, some (elems.take (k * 100))⟩]⟩,
            elems.length)) (k * 100) = false := by
        simp [lapCont]
        omega
      simp only [fetchLaptimesAux, hcont, Bool.false_eq_true, if_false]
      have hceil : (elems.length + 99) / 100 - k = 0 := by omega
      rw [hceil, List.take_of_length_le (by omega)]
      simp
    · push_neg at hstop
      have hcont : lapCont (α := α)
          (some (⟨elems.length, mf 0, [⟨inf 0, some (elems.take (k * 100))⟩]⟩,
            elems.length)) (k * 100) = true := by
        simp [lapCont]
        omega
      have hpg : lapHonestPages mf inf rtf elems (k * 100) =
          .ok (honestDocM mf inf elems (k * 100)) (rtf (k * 100)) := rfl
      simp only [fetchLaptimesAux, hcont, if_true, hpg]
      have happ : appendLaps
          (⟨elems.length, mf 0, [⟨inf 0, some (elems.take (k * 100))⟩]⟩ :
            Doc α)
          (honestDocM mf inf elems (k * 100)) =
          .ok ⟨elems.length, mf 0,
            [⟨inf 0, some (elems.take ((k + 1) * 100))⟩]⟩ := by
        show Except.ok (⟨elems.length, mf 0, [⟨inf 0,
          some (elems.take (k * 100) ++
            (elems.drop (k * 100)).take 100)⟩]⟩ : Doc α) = _
        rw [← List.take_add]
        have h : k * 100 + 100 = (k + 1) * 100 := by ring
        rw [h]
      have hoff : k * 100 + 100 = (k + 1) * 100 := by ring
      simp only [happ, hoff]
      rw [ih (k + 1) (now + rtf (k * 100) + 1 / 4) (by omega) (by omega)]
      simp only [lapPrepend]
      have hceil : (elems.length + 99) / 100 - k =
          ((elems.length + 99) / 100 - (k + 1)) + 1 := by omega
      rw [hceil, ← cons_offsets k]

/-- On the honest server with a nonempty collection, `fetch_laptimes`
requests exactly the offsets `0, 100, 200, …` covering the total and
returns the first page's envelope with the merged full collection. -/
theorem fetch_laptimes_honest {α : Type} (mf inf : Nat → String)
    (rtf : Nat → ℚ) (elems : List α) (hne : elems.length ≠ 0) (fuel : Nat)
    (hfuel : elems.length ≤ 100 + fuel * 100) :
    (fetch_laptimes (lapHonestPages mf inf rtf elems) (fuel + 1)).requests
      = (List.range ((elems.length + 99) / 100)).map (fun j => j * 100)
    ∧ (fetch_laptimes (lapHonestPages mf inf rtf elems) (fuel + 1)).outcome
      = some (.ok (some ⟨elems.length, mf 0, [⟨inf 0, some elems⟩]⟩)) := by
  have hstep : fetch_laptimes (lapHonestPages mf inf rtf elems) (fuel + 1) =
      lapPrepend 0 0 (fetchLaptimesAux (lapHonestPages mf inf rtf elems) fuel
        (1 * 100)
        (some (⟨elems.length, mf 0, [⟨inf 0, some (elems.take (1 * 100))⟩]⟩,
          elems.length)) (0 + rtf 0 + 1 / 4)) := rfl
  rw [hstep]
  rw [fetchLaptimesAux_honest mf inf rtf elems fuel 1 (0 + rtf 0 + 1 / 4)
    le_rfl (by omega)]
  simp only [lapPrepend]
  refine ⟨?_, trivial⟩
  generalize hn : (elems.length + 99) / 100 - 1 = n
  have hC : (elems.length + 99) / 100 = n + 1 := by omega
  rw [hC]
  have h := cons_offsets 0 n
  simp only [Nat.zero_mul] at h
  have hfun : (fun j => (1 + j) * 100) = (fun j => (0 + 1 + j) * 100) := by
    funext j
    ring
  rw [hfun, h]
  refine List.map_congr_left ?_
  intro a _
  ring

/-- Writing the merged list into the first race leaves the items of the
host document (empty `Races`) or installs the merged list. -/
theorem extractItems_setFirstRaceItems {α : Type} (d : Doc α)
    (xs : List α) :
    extractItems (setFirstRaceItems d xs) = extractItems d ∨
      extractItems (setFirstRaceItems d xs) = xs := by
  unfold setFirstRaceItems
  cases hr : d.races with
  | nil =>
    left
    rfl
  | cons r rs =>
    right
    rfl

/-- C1 counterexample: a collection with declared total 0 still issues
one page request (the probe at offset 0), not `ceil(0/100) = 0`. -/
theorem zero_total_single_request :
    fetchPitstopsForRace (honestPagesM (fun _ => "m") (fun _ => "r")
        ([] : List Nat)) 1
      = some ⟨.ret (some (honestDocM (fun _ => "m") (fun _ => "r") [] 0)),
          [0]⟩
    ∧ ([0] : List Nat).length ≠
        ((List.range (((0 : Nat) + 99) / 100)).map (fun j => j * 100)).length := by
  exact ⟨by decide, by decide⟩

/-- C1 (amended): for a nonempty collection of `T` elements served
honestly in 100-element slices, the pit-stops collector issues exactly
`ceil(T/100)` page requests at offsets `0, 100, 200, …` in ascending
order and merges exactly the `T` elements, and the lap-times collector
does the same (a total of 0 instead costs one probe request and returns
the empty first page unchanged); and against any server whose successful
pages are true slices, any document the pit-stops collector returns
carries at most `T` merged elements, failures included. -/
theorem pagination_complete_amended {α : Type} (elems : List α)
    (mf inf : Nat → String) (rtf : Nat → ℚ) (hne : elems ≠ []) :
    (∃ d, fetchPitstopsForRace (honestPagesM mf inf elems) elems.length
        = some ⟨.ret (some d),
            (List.range ((elems.length + 99) / 100)).map (fun j => j * 100)⟩
      ∧ extractItems d = elems)
    ∧ ((fetch_laptimes (lapHonestPages mf inf rtf elems)
          (elems.length + 1)).requests
        = (List.range ((elems.length + 99) / 100)).map (fun j => j * 100)
      ∧ (fetch_laptimes (lapHonestPages mf inf rtf elems)
          (elems.length + 1)).outcome
        = some (.ok (some ⟨elems.length, mf 0, [⟨inf 0, some elems⟩]⟩)))
    ∧ (∀ (pages : Nat → Option (Doc α)) (fuel : Nat) (run : PitsRun α)
        (d : Doc α), (∀ o, okPage elems o (pages o)) →
        fetchPitstopsForRace pages fuel = some run →
        run.outcome = PitsOutcome.ret (some d) →
        (extractItems d).length ≤ elems.length) := by
  have hne0 : elems.length ≠ 0 := fun h => hne (List.length_eq_zero.mp h)
  refine ⟨?_, ?_, ?_⟩
  · refine ⟨setFirstRaceItems
      (honestDocM mf inf elems (((elems.length + 99) / 100 - 1) * 100))
      elems, ?_, rfl⟩
    exact fetchPitstopsForRace_honest mf inf elems hne0 elems.length
      (by omega)
  · exact fetch_laptimes_honest mf inf rtf elems hne0 elems.length (by omega)
  · intro pages fuel run d hok hrun houtcome
    cases hp0 : pages 0 with
    | none =>
      simp only [fetchPitstopsForRace, hp0] at hrun
      cases hrun
      simp at houtcome
    | some d0 =>
      have hok0 := hok 0
      rw [hp0] at hok0
      simp only [okPage] at hok0
      obtain ⟨hdt, hdi⟩ := hok0
      simp only [fetchPitstopsForRace, hp0] at hrun
      by_cases h0 : d0.total = 0
      · rw [if_pos h0] at hrun
        cases hrun
        simp only [PitsOutcome.ret.injEq, Option.some.injEq] at houtcome
        subst houtcome
        rw [hdi, List.drop_zero, List.length_take]
        omega
      · rw [if_neg h0] at hrun
        rw [hdt] at hrun
        have hdi0 : extractItems d0 = elems.take ((0 + 1) * 100) := by
          rw [hdi, List.drop_zero]
        rw [hdi0] at hrun
        cases hloop : fetchPitstopsLoop pages elems.length 100 fuel 0
            (elems.take ((0 + 1) * 100)) (some d0) [0] with
        | none =>
          rw [hloop] at hrun
          simp at hrun
        | some t =>
          rw [hloop] at hrun
          simp only [Option.map_some'] at hrun
          cases hrun
          have hle := fetchPitstopsLoop_le pages elems hok fuel 0 (some d0)
            [0] ?_ t hloop
          · simp only [pitsFinish] at houtcome
            by_cases hlen : 0 < t.1.length
            · rw [if_pos hlen] at houtcome
              cases ht2 : t.2.1 with
              | none =>
                rw [ht2] at houtcome
                simp at houtcome
              | some dl =>
                rw [ht2] at houtcome
                simp only [PitsOutcome.ret.injEq, Option.some.injEq]
                  at houtcome
                rw [← houtcome]
                rcases extractItems_setFirstRaceItems dl t.1 with he | he <;>
                  rw [he]
                · exact hle.2 dl ht2
                · exact hle.1
            · rw [if_neg hlen] at houtcome
              simp only [PitsOutcome.ret.injEq] at houtcome
              exact hle.2 d houtcome
          · intro x hx
            cases hx
            rw [hdi, List.drop_zero, List.length_take]
            omega

/-- Witness for `pagination_complete_amended` on a one-element
collection. -/
theorem pagination_complete_amended_witness :
    (∃ d, fetchPitstopsForRace
          (honestPagesM (fun _ => "m") (fun _ => "r") [5]) ([5] : List Nat).length
        = some ⟨.ret (some d),
            (List.range ((([5] : List Nat).length + 99) / 100)).map
              (fun j => j * 100)⟩
      ∧ extractItems d = [5])
    ∧ ((fetch_laptimes (lapHonestPages (fun _ => "m") (fun _ => "r")
          (fun _ => 0) [5]) (([5] : List Nat).length + 1)).requests
        = (List.range ((([5] : List Nat).length + 99) / 100)).map
            (fun j => j * 100)
      ∧ (fetch_laptimes (lapHonestPages (fun _ => "m") (fun _ => "r")
          (fun _ => 0) [5]) (([5] : List Nat).length + 1)).outcome
        = some (.ok (some ⟨([5] : List Nat).length, "m", [⟨"r", some [5]⟩]⟩)))
    ∧ (∀ (pages : Nat → Option (Doc Nat)) (fuel : Nat) (run : PitsRun Nat)
        (d : Doc Nat), (∀ o, okPage [5] o (pages o)) →
        fetchPitstopsForRace pages fuel = some run →
        run.outcome = PitsOutcome.ret (some d) →
        (extractItems d).length ≤ ([5] : List Nat).length) :=
  pagination_complete_amended [5] (fun _ => "m") (fun _ => "r") (fun _ => 0)
    (by decide)

set_option maxRecDepth 10000 in
/-- C2: when the first page succeeds and the second fails, the collector
does not return the partial merge — evaluating the reconstruction guard
subscripts the `None` left in `response_data` by the `break`, raising an
uncaught `TypeError`, so the job persists nothing. -/
theorem failed_page_merge_raises :
    fetchPitstopsForRace failingSecondPage 1 =
      some ⟨PitsOutcome.typeError, [0, 100]⟩ := by
  decide

/-- Against the stalling server, the pit-stops loop never exits: the
accumulated count stays below the declared total while every fetch
succeeds, so no amount of fuel reaches a result. -/
theorem stallingPages_loop_no_fuel :
    ∀ (fuel offset : Nat) (cur : Option (Doc Nat)) (reqs : List Nat),
      fetchPitstopsLoop stallingPages 5 100 fuel offset [0, 1] cur reqs =
        none := by
  intro fuel
  induction fuel with
  | zero =>
    intro offset cur reqs
    simp [fetchPitstopsLoop]
  | succ fuel ih =>
    intro offset cur reqs
    have hpg : stallingPages (offset + 100) = some ⟨5, "m", []⟩ := by
      unfold stallingPages
      rw [if_neg (by omega)]
    simp only [fetchPitstopsLoop]
    rw [if_pos (by decide)]
    rw [hpg]
    show fetchPitstopsLoop stallingPages 5 100 fuel (offset + 100)
      ([0, 1] ++ extractItems (⟨5, "m", []⟩ : Doc Nat)) (some ⟨5, "m", []⟩)
      (reqs ++ [offset + 100]) = none
    have hext : [0, 1] ++ extractItems (⟨5, "m", []⟩ : Doc Nat) = [0, 1] := by
      decide
    rw [hext]
    exact ih (offset + 100) _ _

/-- C8: the pit-stops fetch does not terminate when a successful page
contributes fewer elements than expected — with the accumulated count
stuck below the declared total, every fuel bound is exhausted. -/
theorem pitstops_fetch_nonterminating :
    ∀ fuel : Nat, fetchPitstopsForRace stallingPages fuel = none := by
  intro fuel
  have hstep : fetchPitstopsForRace stallingPages fuel =
      (fetchPitstopsLoop stallingPages 5 100 fuel 0 [0, 1]
        (some ⟨5, "m", [⟨"r", some [0, 1]⟩]⟩) [0]).map
        (fun t => pitsFinish t.1 t.2.1 t.2.2) := rfl
  rw [hstep, stallingPages_loop_no_fuel]
  rfl

set_option maxRecDepth 40000 in
/-- C5 counterexample: on a two-page collection whose pages carry
distinguishable envelopes (`meta` = the offset's decimal string), the
merged document returned by the pit-stops collector carries the second
page's envelope, not the first page's. -/
theorem envelope_from_last_page :
    fetchPitstopsForRace (honestPagesM (fun o => toString o) (fun _ => "r")
        (List.range 150)) 2
      = some ⟨.ret (some ⟨150, "100", [⟨"r", some (List.range 150)⟩]⟩),
          [0, 100]⟩
    ∧ (honestDocM (fun o => toString o) (fun _ => "r")
        (List.range 150) 0).meta = "0"
    ∧ ("100" : String) ≠ "0" := by
  refine ⟨by decide, by decide, by decide⟩

/-- C5 (amended): on a successful multi-page merge the lap-times
collector reuses the first page's envelope as the container of the
merged array, but the pit-stops collector writes the merged array into
the envelope of the last page fetched (for a single-page collection the
two coincide); later pages of the lap-times merge, and all pages but the
last of the pit-stops merge, contribute only their array slices. -/
theorem envelope_reuse_amended {α : Type} (elems : List α)
    (mf inf : Nat → String) (rtf : Nat → ℚ) (hne : elems ≠ []) :
    fetchPitstopsForRace (honestPagesM mf inf elems) elems.length
      = some ⟨.ret (some (setFirstRaceItems
          (honestDocM mf inf elems (((elems.length + 99) / 100 - 1) * 100))
          elems)),
        (List.range ((elems.length + 99) / 100)).map (fun j => j * 100)⟩
    ∧ (fetch_laptimes (lapHonestPages mf inf rtf elems)
        (elems.length + 1)).outcome
      = some (.ok (some ⟨elems.length, mf 0, [⟨inf 0, some elems⟩]⟩)) := by
  have hne0 : elems.length ≠ 0 := fun h => hne (List.length_eq_zero.mp h)
  exact ⟨fetchPitstopsForRace_honest mf inf elems hne0 elems.length
      (by omega),
    (fetch_laptimes_honest mf inf rtf elems hne0 elems.length (by omega)).2⟩

/-- Witness for `envelope_reuse_amended` on a one-element collection. -/
theorem envelope_reuse_amended_witness :
    fetchPitstopsForRace (honestPagesM (fun _ => "m") (fun _ => "r") [5])
        ([5] : List Nat).length
      = some ⟨.ret (some (setFirstRaceItems
          (honestDocM (fun _ => "m") (fun _ => "r") [5]
            (((([5] : List Nat).length + 99) / 100 - 1) * 100)) [5])),
        (List.range ((([5] : List Nat).length + 99) / 100)).map
          (fun j => j * 100)⟩
    ∧ (fetch_laptimes (lapHonestPages (fun _ => "m") (fun _ => "r")
        (fun _ => 0) [5]) (([5] : List Nat).length + 1)).outcome
      = some (.ok (some ⟨([5] : List Nat).length, "m", [⟨"r", some [5]⟩]⟩)) :=
  envelope_reuse_amended [5] (fun _ => "m") (fun _ => "r") (fun _ => 0)
    (by decide)

/-- C7 counterexample: for the same 500 response, the pitstops fetcher
returns the no-data sentinel but the events-index fetcher — which has no
status check — returns the parsed body of the error response as data. -/
theorem events_returns_error_body :
    events.fetch_with_rate_limit [Resp.mk 500 (7 : Nat)] =
        some (7, [3 / 10])
    ∧ PitstopsFetcher.make_request [Resp.mk 500 (7 : Nat)] =
        some (none, []) := by
  constructor <;> rfl

/-- C7 (amended): on any response that is neither 200 nor 429, the
pitstops, qualifying, sprint, constructor-standings and driver-standings
fetchers log and return the `None` sentinel without raising, and the
lap-times collector likewise returns `None` when its first attempt
raises a non-429 request error; the events-index fetcher alone performs
no status check and returns the parsed error body instead of the
sentinel. -/
theorem transient_error_sentinel_amended {J : Type} (r : Resp J)
    (rs : List (Resp J)) (h200 : r.status ≠ 200) (h429 : r.status ≠ 429) :
    PitstopsFetcher.make_request (r :: rs) = some (none, [])
    ∧ QualifyingResultsFetcher.make_request (r :: rs) = some (none, [])
    ∧ SprintResultsFetcher.make_request (r :: rs) = some (none, [])
    ∧ ConstructorStandingsFetcher.make_request (r :: rs) = some none
    ∧ driver_points.fetch_with_rate_limit (r :: rs) = some (none, [1 / 2])
    ∧ events.fetch_with_rate_limit (r :: rs) = some (r.body, [3 / 10])
    ∧ (∀ (α : Type) (pages : Nat → LapResp α) (rtt : ℚ) (fuel : Nat),
        pages 0 = LapResp.err rtt →
        fetch_laptimes pages (fuel + 1) = ⟨[0], [0], some (.ok none)⟩) := by
  refine ⟨?_, ?_, ?_, ?_, ?_, ?_, ?_⟩
  · simp [PitstopsFetcher.make_request, h429, h200]
  · simp [QualifyingResultsFetcher.make_request, h429, h200]
  · simp [SprintResultsFetcher.make_request, h429, h200]
  · simp [ConstructorStandingsFetcher.make_request, h429, h200]
  · simp [driver_points.fetch_with_rate_limit, h429, h200]
  · simp [events.fetch_with_rate_limit, h429]
  · intro α pages rtt fuel hp0
    simp only [fetch_laptimes, fetchLaptimesAux, lapCont, if_true, hp0]

/-- Witness for `transient_error_sentinel_amended` at a concrete 500
response. -/
theorem transient_error_sentinel_amended_witness :
    PitstopsFetcher.make_request [Resp.mk 500 (9 : Nat)] = some (none, [])
    ∧ QualifyingResultsFetcher.make_request [Resp.mk 500 (9 : Nat)] =
        some (none, [])
    ∧ SprintResultsFetcher.make_request [Resp.mk 500 (9 : Nat)] =
        some (none, [])
    ∧ ConstructorStandingsFetcher.make_request [Resp.mk 500 (9 : Nat)] =
        some none
    ∧ driver_points.fetch_with_rate_limit [Resp.mk 500 (9 : Nat)] =
        some (none, [1 / 2])
    ∧ events.fetch_with_rate_limit [Resp.mk 500 (9 : Nat)] =
        some ((Resp.mk 500 (9 : Nat)).body, [3 / 10])
    ∧ (∀ (α : Type) (pages : Nat → LapResp α) (rtt : ℚ) (fuel : Nat),
        pages 0 = LapResp.err rtt →
        fetch_laptimes pages (fuel + 1) = ⟨[0], [0], some (.ok none)⟩) :=
  transient_error_sentinel_amended (Resp.mk 500 9) [] (by decide) (by decide)

/-- The lap-times loop sleeps 1/4 s after every processed response (60 s
after a 429), so its successive sends are at least 1/4 s apart in every
run. -/
theorem fetchLaptimesAux_sends_spacing {α : Type}
    (pages : Nat → LapResp α) (hr : ∀ o, 0 ≤ lapRtt (pages o)) :
    ∀ (fuel offset : Nat) (st : Option (Doc α × Nat)) (now : ℚ),
      List.Chain (fun a b => a + 1 / 4 ≤ b) (now - 1 / 4)
        ((fetchLaptimesAux pages fuel offset st now).sends) := by
  intro fuel
  induction fuel with
  | zero =>
    intro offset st now
    by_cases hc : lapCont st offset
    · simp only [fetchLaptimesAux, if_pos hc]
      exact List.Chain.nil
    · simp only [fetchLaptimesAux, if_neg hc]
      exact List.Chain.nil
  | succ fuel ih =>
    intro offset st now
    by_cases hc : lapCont st offset
    · have hro := hr offset
      cases hpg : pages offset with
      | rateLimited rtt =>
        rw [hpg] at hro
        simp only [fetchLaptimesAux, if_pos hc, hpg, lapPrepend]
        refine List.Chain.cons (by linarith) ?_
        refine chain_spacing_weaken _ _ _ _ ?_ (ih offset st (now + rtt + 60))
        simp only [lapRtt] at hro
        linarith
      | err rtt =>
        simp only [fetchLaptimesAux, if_pos hc, hpg]
        exact List.Chain.cons (by linarith) List.Chain.nil
      | ok d rtt =>
        rw [hpg] at hro
        simp only [lapRtt] at hro
        cases st with
        | none =>
          simp only [fetchLaptimesAux, if_pos hc, hpg, lapPrepend]
          refine List.Chain.cons (by linarith) ?_
          refine chain_spacing_weaken _ _ _ _ ?_
            (ih (offset + 100) (some (d, d.total)) (now + rtt + 1 / 4))
          linarith
        | some p =>
          cases happ : appendLaps p.1 d with
          | error e =>
            simp only [fetchLaptimesAux, if_pos hc, hpg, happ]
            exact List.Chain.cons (by linarith) List.Chain.nil
          | ok ad2 =>
            simp only [fetchLaptimesAux, if_pos hc, hpg, happ, lapPrepend]
            refine List.Chain.cons (by linarith) ?_
            refine chain_spacing_weaken _ _ _ _ ?_
              (ih (offset + 100) (some (ad2, p.2)) (now + rtt + 1 / 4))
            linarith
    · simp only [fetchLaptimesAux, if_neg hc]
      exact List.Chain.nil

/-- C9: burst spacing.  For the pit-stops fetcher (burst limit 4, the
same code as the qualifying and sprint fetchers): starting from any
`last_request_time` and any current time not before it, with nonnegative
network delays, consecutive outgoing requests — the 429 retry path
included — are never issued less than 1/4 s apart, the first send comes
at least 1/4 s after the previous request completed, and when less than
1/4 s has elapsed the fetcher sleeps exactly the remaining delta, the
first send falling exactly at `last + 1/4`.  For the lap-times fetcher
(burst limit 4): in every run, successive sends of its loop are at least
1/4 s apart. -/
theorem burst_spacing {J : Type} {α : Type} (rs : List (TimedResp J))
    (last now : ℚ) (pages : Nat → LapResp α) (fuel offset : Nat)
    (st : Option (Doc α × Nat)) (tnow : ℚ)
    (hr : ∀ r ∈ rs, 0 ≤ r.rtt) (hln : last ≤ now)
    (hlap : ∀ o, 0 ≤ lapRtt (pages o)) :
    List.Chain (fun a b => a + 1 / 4 ≤ b) last
      (PitstopsFetcher.make_request_timed rs last now).2.2
    ∧ (now - last < 1 / 4 → rs ≠ [] →
      ((PitstopsFetcher.make_request_timed rs last now).2.2).head? =
        some (last + 1 / 4))
    ∧ List.Chain (fun a b => a + 1 / 4 ≤ b) (tnow - 1 / 4)
        ((fetchLaptimesAux pages fuel offset st tnow).sends) := by
  obtain ⟨h1, h2⟩ := make_request_timed_spacing rs last now hr hln
  exact ⟨h1, h2, fetchLaptimesAux_sends_spacing pages hlap fuel offset st tnow⟩

/-- Witness for `burst_spacing`: a 429 then a 200 for the pit-stops
fetcher, starting with the previous request freshly completed, and a
two-page lap-times run. -/
theorem burst_spacing_witness :
    List.Chain (fun a b => a + 1 / 4 ≤ b) 0
      (PitstopsFetcher.make_request_timed
        ([⟨429, 7, 1⟩, ⟨200, 7, 2⟩] : List (TimedResp Nat)) 0 0).2.2
    ∧ ((0 : ℚ) - 0 < 1 / 4 →
      ([⟨429, 7, 1⟩, ⟨200, 7, 2⟩] : List (TimedResp Nat)) ≠ [] →
      ((PitstopsFetcher.make_request_timed
        ([⟨429, 7, 1⟩, ⟨200, 7, 2⟩] : List (TimedResp Nat)) 0 0).2.2).head? =
        some ((0 : ℚ) + 1 / 4))
    ∧ List.Chain (fun a b => a + 1 / 4 ≤ b) ((0 : ℚ) - 1 / 4)
        ((fetchLaptimesAux
          (lapHonestPages (fun _ => "m") (fun _ => "r") (fun _ => 0)
            (List.range 150)) 3 0 none 0).sends) :=
  burst_spacing [⟨429, 7, 1⟩, ⟨200, 7, 2⟩] 0 0
    (lapHonestPages (fun _ => "m") (fun _ => "r") (fun _ => 0)
      (List.range 150)) 3 0 none 0 (by decide) le_rfl (fun o => le_rfl)

/-- Witness for `sustained_policy_half_window` at a concrete state. -/
theorem sustained_policy_half_window_witness :
    ((100 : ℚ) - (⟨500, 0⟩ : ConstructorStandingsFetcher.RLState).hour_start_time
        < 1800 →
      ConstructorStandingsFetcher.check_rate_limits ⟨500, 0⟩ 100 =
        (⟨0, (0 : ℚ) + 1800⟩,
          (0 : ℚ) + 1800 + ConstructorStandingsFetcher.REQUEST_DELAY))
    ∧ ((1800 : ℚ) ≤ (100 : ℚ) - (0 : ℚ) →
      ConstructorStandingsFetcher.check_rate_limits ⟨500, 0⟩ 100 =
        (⟨500, 0⟩, (100 : ℚ) + ConstructorStandingsFetcher.REQUEST_DELAY)) :=
  sustained_policy_half_window ⟨500, 0⟩ 100 (by norm_num) (by decide)
